import Mathlib

/-!
Verification development for the trace-derived metrics engine of the
mcp-token-bench repository: a shallow embedding of the Trace Collector
(`src/traceCollector.ts`), the Experiment Runner's per-run record
construction (`src/experiment.ts`), the metrics aggregator
(`src/metrics.ts`) and the statistics primitives (`src/stats.ts`),
together with theorems settling the specification's claims about them.
-/

namespace MCPBench

/-! ## A model of dynamically-typed JS values

The collector probes unknown-shaped trace/span objects; we model the
JSON-like values it can encounter.  `Option JValue` stands for a possibly
`undefined` value (`none` = `undefined`); `JValue.null` is JS `null`.
`JValue.func r` models a zero-argument function returning `r` (only used
for the `toJSON` probe). -/

inductive JValue where
  | null : JValue
  | bool (b : Bool) : JValue
  | num (n : Int) : JValue
  | str (s : String) : JValue
  | obj (fields : List (String × JValue)) : JValue
  | func (result : JValue) : JValue

/-- JS truthiness of a defined value. -/
def truthy : JValue → Bool
  | .null => false
  | .bool b => b
  | .num n => n ≠ 0
  | .str s => s ≠ ""
  | .obj _ => true
  | .func _ => true

/-- Truthiness of a possibly-`undefined` value (`if (x)` in JS). -/
def truthyOpt : Option JValue → Bool
  | none => false
  | some v => truthy v

/-- JS nullish coalescing `a ?? b`: `b` exactly when `a` is
`undefined` or `null`. -/
def nullishOr (a b : Option JValue) : Option JValue :=
  match a with
  | none => b
  | some .null => b
  | some v => some v

/-- Property lookup on a JS object (first binding wins, as in a JS
object literal the later duplicate overwrites — our builders never
duplicate keys).  Mirrors `getRecordProp`: non-objects yield
`undefined`. -/
def getRecordProp : Option JValue → String → Option JValue
  | some (.obj fields), key =>
    match fields.find? (fun f => f.1 = key) with
    | some f => some f.2
    | none => none
  | _, _ => none

/-- Mirrors `getStringProp`: the property if it is a string, else
`undefined`. -/
def getStringProp (value : Option JValue) (key : String) : Option String :=
  match getRecordProp value key with
  | some (.str s) => some s
  | _ => none

/-- Mirrors `getTraceId`: `traceId` (string, or number coerced to
string), falling back to `id`. -/
def getTraceId (value : Option JValue) : Option String :=
  match getRecordProp value "traceId" with
  | some (.str s) => some s
  | some (.num n) => some (toString n)
  | _ =>
    match getRecordProp value "id" with
    | some (.str s) => some s
    | some (.num n) => some (toString n)
    | _ => none

/-- Mirrors `getSpanTraceId`: `traceId` then snake-case `trace_id`,
strings kept, numbers coerced. -/
def getSpanTraceId (value : Option JValue) : Option String :=
  match getRecordProp value "traceId" with
  | some (.str s) => some s
  | some (.num n) => some (toString n)
  | _ =>
    match getRecordProp value "trace_id" with
    | some (.str s) => some s
    | some (.num n) => some (toString n)
    | _ => none

/-! ## Association-list model of `Map` / `Record`

JS `Map.set` updates an existing key in place (keeping its position) and
appends a new key; `Map.get` returns `undefined` for missing keys;
`Map.delete` removes the binding. -/

def mapGet {α : Type} : List (String × α) → String → Option α
  | [], _ => none
  | (k, v) :: rest, key => if k = key then some v else mapGet rest key

def mapSet {α : Type} : List (String × α) → String → α → List (String × α)
  | [], key, value => [(key, value)]
  | (k, v) :: rest, key, value =>
    if k = key then (key, value) :: rest else (k, v) :: mapSet rest key value

def mapDelete {α : Type} : List (String × α) → String → List (String × α)
  | [], _ => []
  | (k, v) :: rest, key =>
    if k = key then rest else (k, v) :: mapDelete rest key

/-! ## Trace Collector (`src/traceCollector.ts`) -/

/-- The metrics exposed for one trace (`TraceMetrics`). -/
structure TraceMetrics where
  traceId : String
  name : Option String
  toolCallCount : Nat
  errors : Nat
  retries : Nat
deriving DecidableEq

/-- Collector-internal per-trace accumulator (`TraceState`):
`TraceMetrics` plus the per-tool-name count of unresolved errors. -/
structure TraceState where
  traceId : String
  name : Option String
  toolCallCount : Nat
  errors : Nat
  retries : Nat
  pendingErrorsByTool : List (String × Nat)
deriving DecidableEq

def TraceState.toMetrics (st : TraceState) : TraceMetrics :=
  { traceId := st.traceId
    name := st.name
    toolCallCount := st.toolCallCount
    errors := st.errors
    retries := st.retries }

/-- The collector's mutable state: the trace map and the "latest trace
id" slot. -/
structure Collector where
  traces : List (String × TraceState)
  latestTraceId : Option String
deriving DecidableEq

def Collector.empty : Collector := { traces := [], latestTraceId := none }

/-- `onTraceStart`: register a fresh state keyed by the resolved trace
id and mark it latest; no-op when the id cannot be determined. -/
def onTraceStart (c : Collector) (trace : JValue) : Collector :=
  match getTraceId (some trace) with
  | none => c
  | some traceId =>
    { traces := mapSet c.traces traceId
        { traceId := traceId
          name := getStringProp (some trace) "name"
          toolCallCount := 0
          errors := 0
          retries := 0
          pendingErrorsByTool := [] }
      latestTraceId := some traceId }

/-- The span's `spanData`, probed as `spanData ?? data`. -/
def spanDataOf (span : JValue) : Option JValue :=
  nullishOr (getRecordProp (some span) "spanData") (getRecordProp (some span) "data")

/-- The span's `toJSON()` result when `toJSON` is a function. -/
def spanJsonOf (span : JValue) : Option JValue :=
  match getRecordProp (some span) "toJSON" with
  | some (.func r) => some r
  | _ => none

/-- The span's error indicator: `span.error ?? span.toJSON().error`,
interpreted by JS truthiness. -/
def spanHasError (span : JValue) : Bool :=
  truthyOpt (nullishOr (getRecordProp (some span) "error")
    (getRecordProp (spanJsonOf span) "error"))

/-- The span type discriminator read from the span data. -/
def spanTypeOf (span : JValue) : Option String :=
  getStringProp (spanDataOf span) "type"

/-- The tool name used by the retry heuristic:
`getStringProp(spanData, "name") ?? "unknown"`. -/
def spanToolName (span : JValue) : String :=
  (getStringProp (spanDataOf span) "name").getD "unknown"

/-- The update `onSpanEnd` applies to the matched trace state. -/
def applySpan (record : TraceState) (span : JValue) : TraceState :=
  let error := spanHasError span
  let record :=
    if error then { record with errors := record.errors + 1 } else record
  if spanTypeOf span = some "function" then
    let record := { record with toolCallCount := record.toolCallCount + 1 }
    let toolName := spanToolName span
    let pending := (mapGet record.pendingErrorsByTool toolName).getD 0
    if error then
      let updated := mapSet record.pendingErrorsByTool toolName (pending + 1)
      { record with pendingErrorsByTool := updated }
    else if pending > 0 then
      let updated := mapSet record.pendingErrorsByTool toolName (pending - 1)
      { record with retries := record.retries + 1, pendingErrorsByTool := updated }
    else record
  else record

/-- `onSpanEnd`: resolve the span's trace id, look up its state (silently
dropping spans for unknown traces), then count errors, tool calls and
inferred retries. -/
def onSpanEnd (c : Collector) (span : JValue) : Collector :=
  match getSpanTraceId (some span) with
  | none => c
  | some traceId =>
    match mapGet c.traces traceId with
    | none => c
    | some record =>
      { c with traces := mapSet c.traces traceId (applySpan record span) }

/-- `consumeLatest`: destructive read of the latest trace's metrics. -/
def consumeLatest (c : Collector) : Option TraceMetrics × Collector :=
  match c.latestTraceId with
  | none => (none, c)
  | some latest =>
    match mapGet c.traces latest with
    | none => (none, c)
    | some record =>
      (some record.toMetrics, { c with traces := mapDelete c.traces latest })

/-! ## Experiment Runner per-run records (`src/experiment.ts`) -/

/-- The two agent variants (`AgentKind = "mcp" | "cli"`): `mcp` is the
native agent, `cli` the cli-wrapped one. -/
inductive AgentKind where
  | mcp : AgentKind
  | cli : AgentKind
deriving DecidableEq

def AgentKind.toKeyString : AgentKind → String
  | .mcp => "mcp"
  | .cli => "cli"

/-- One run's outcome record (`RunMetrics`).  JS numbers are modelled as
exact rationals. -/
structure RunMetrics where
  taskId : String
  model : String
  agent : AgentKind
  runIndex : Nat
  totalTokens : ℚ
  promptTokens : ℚ
  completionTokens : ℚ
  toolCallCount : ℚ
  retries : ℚ
  errors : ℚ
  durationMs : ℚ
  timestamp : String
  success : Bool
  errorMessage : Option String
deriving DecidableEq

/-- The record built by `runSingle`'s catch branch when the executor's
call rejects: token fields zeroed, tool calls / retries / errors taken
from the consumed trace metrics with `?? 0` / `?? 0` / `?? 1`. -/
def failedRunMetrics (taskId model : String) (agent : AgentKind) (runIndex : Nat)
    (trace : Option TraceMetrics) (durationMs : ℚ) (timestamp : String)
    (message : String) : RunMetrics :=
  { taskId := taskId
    model := model
    agent := agent
    runIndex := runIndex
    totalTokens := 0
    promptTokens := 0
    completionTokens := 0
    toolCallCount := match trace with | some t => (t.toolCallCount : ℚ) | none => 0
    retries := match trace with | some t => (t.retries : ℚ) | none => 0
    errors := match trace with | some t => (t.errors : ℚ) | none => 1
    durationMs := durationMs
    timestamp := timestamp
    success := false
    errorMessage := some message }

/-! ## Metrics aggregator (`src/metrics.ts`) -/

/-- `average`: sum divided by length, `0` for the empty list. -/
def average (values : List ℚ) : ℚ :=
  if values.length = 0 then 0 else values.foldl (· + ·) 0 / values.length

/-- Spec-side definition: the arithmetic mean of a list of rationals
(also `0` for the empty list, by the division-by-zero convention). -/
def listMean (values : List ℚ) : ℚ := values.sum / values.length

/-- The grouping key `` `${run.taskId}::${run.agent}` ``. -/
def runKey (run : RunMetrics) : String :=
  run.taskId ++ "::" ++ run.agent.toKeyString

/-- Fuel-based model of the JS builtin `String.split` restricted to a
non-empty separator, written so the kernel can evaluate it. -/
def jsSplitAux (sep : List Char) : Nat → List Char → List Char → List (List Char)
  | _, [], acc => [acc.reverse]
  | 0, rest, acc => [acc.reverse ++ rest]
  | fuel + 1, c :: rest, acc =>
    if sep.isPrefixOf (c :: rest) then
      acc.reverse :: jsSplitAux sep fuel ((c :: rest).drop sep.length) []
    else
      jsSplitAux sep fuel rest (c :: acc)

/-- `s.split(sep)` for a non-empty separator. -/
def jsSplit (s sep : String) : List String :=
  (jsSplitAux sep.data s.data.length s.data []).map (fun cs => String.mk cs)

/-- One aggregated row (`SummaryRow`); `taskId`/`agent` are recovered by
splitting the composite key, so they are plain strings here. -/
structure SummaryRow where
  taskId : String
  agent : String
  runs : Nat
  avgTotalTokens : ℚ
  avgPromptTokens : ℚ
  avgCompletionTokens : ℚ
  avgToolCallCount : ℚ
  avgRetries : ℚ
  avgErrors : ℚ
  avgDurationMs : ℚ
deriving DecidableEq

/-- The first phase of `summarizeRuns`: the insertion-ordered map from
composite key to the group's runs. -/
def groupRuns (runs : List RunMetrics) : List (String × List RunMetrics) :=
  runs.foldl
    (fun m run => mapSet m (runKey run) ((mapGet m (runKey run)).getD [] ++ [run]))
    []

/-- The row built for one key/group entry: `key.split("::")` recovers
task id and agent, `runs` is the group size, each `avgX` is `average`
over the group's `X` column. -/
def rowOfEntry (entry : String × List RunMetrics) : SummaryRow :=
  let parts := jsSplit entry.1 "::"
  { taskId := parts.getD 0 ""
    agent := parts.getD 1 ""
    runs := entry.2.length
    avgTotalTokens := average (entry.2.map (·.totalTokens))
    avgPromptTokens := average (entry.2.map (·.promptTokens))
    avgCompletionTokens := average (entry.2.map (·.completionTokens))
    avgToolCallCount := average (entry.2.map (·.toolCallCount))
    avgRetries := average (entry.2.map (·.retries))
    avgErrors := average (entry.2.map (·.errors))
    avgDurationMs := average (entry.2.map (·.durationMs)) }

def summarizeRuns (runs : List RunMetrics) : List SummaryRow :=
  (groupRuns runs).map rowOfEntry

/-- The seven averaged metrics compared by `summarizeDiffs`. -/
inductive MetricName where
  | avgTotalTokens
  | avgPromptTokens
  | avgCompletionTokens
  | avgToolCallCount
  | avgRetries
  | avgErrors
  | avgDurationMs
deriving DecidableEq

/-- Dynamic field access `row[metric]`. -/
def metricValue (row : SummaryRow) : MetricName → ℚ
  | .avgTotalTokens => row.avgTotalTokens
  | .avgPromptTokens => row.avgPromptTokens
  | .avgCompletionTokens => row.avgCompletionTokens
  | .avgToolCallCount => row.avgToolCallCount
  | .avgRetries => row.avgRetries
  | .avgErrors => row.avgErrors
  | .avgDurationMs => row.avgDurationMs

/-- The fixed metric list iterated by `summarizeDiffs`. -/
def metricNames : List MetricName :=
  [.avgTotalTokens, .avgPromptTokens, .avgCompletionTokens,
   .avgToolCallCount, .avgRetries, .avgErrors, .avgDurationMs]

/-- One comparison row (`SummaryDiff`). -/
structure SummaryDiff where
  taskId : String
  metric : MetricName
  mcp : ℚ
  cli : ℚ
  delta : ℚ
  percentChange : ℚ
deriving DecidableEq

/-- The per-row update of `summarizeDiffs`'s regrouping loop: fetch the
task's entry (defaulting to an empty one), then a row with agent
`"mcp"` fills the first slot and any other agent the second. -/
def rowUpd (row : SummaryRow) (b : Option (Option SummaryRow × Option SummaryRow)) :
    Option SummaryRow × Option SummaryRow :=
  let entry := b.getD (none, none)
  if row.agent = "mcp" then (some row, entry.2) else (entry.1, some row)

/-- `summarizeDiffs`'s first phase: regroup rows by task id, last row
per agent slot winning. -/
def groupRows (rows : List SummaryRow) :
    List (String × (Option SummaryRow × Option SummaryRow)) :=
  rows.foldl (fun m row => mapSet m row.taskId (rowUpd row (mapGet m row.taskId))) []

/-- The diff pushed for one metric of a group with both variants. -/
def mkDiff (taskId : String) (mcpRow cliRow : SummaryRow) (metric : MetricName) :
    SummaryDiff :=
  let mcpValue := metricValue mcpRow metric
  let cliValue := metricValue cliRow metric
  let delta := cliValue - mcpValue
  { taskId := taskId
    metric := metric
    mcp := mcpValue
    cli := cliValue
    delta := delta
    percentChange := if mcpValue = 0 then 0 else delta / mcpValue * 100 }

/-- The diffs pushed for one group: the seven metrics when both agent
variants are present, nothing otherwise (`if (!mcp || !cli) continue`). -/
def diffsOfEntry (entry : String × (Option SummaryRow × Option SummaryRow)) :
    List SummaryDiff :=
  match entry.2 with
  | (some mcpRow, some cliRow) => metricNames.map (mkDiff entry.1 mcpRow cliRow)
  | _ => []

def summarizeDiffs (rows : List SummaryRow) : List SummaryDiff :=
  (groupRows rows).flatMap diffsOfEntry

/-! ## Statistics primitives (`src/stats.ts`), over idealized reals -/

structure MeanStdResult where
  mean : ℝ
  std : ℝ

noncomputable def meanStd (vals : List ℝ) : MeanStdResult :=
  if vals.length = 0 then ⟨0, 0⟩
  else
    let mean := vals.foldl (· + ·) (0 : ℝ) / vals.length
    let variance := (vals.foldl (fun a b => a + (b - mean) ^ 2) (0 : ℝ)) / vals.length
    ⟨mean, Real.sqrt variance⟩

structure WilsonResult where
  center : ℝ
  low : ℝ
  high : ℝ

noncomputable def wilsonInterval (successes total : ℝ) : WilsonResult :=
  if total = 0 then ⟨0, 0, 0⟩
  else
    let z : ℝ := 1.96
    let phat := successes / total
    let denom := 1 + z * z / total
    let center := (phat + z * z / (2 * total)) / denom
    let half :=
      (z / denom) * Real.sqrt ((phat * (1 - phat) + z * z / (4 * total)) / total)
    ⟨center, max 0 (center - half), min 1 (center + half)⟩

/-- Spec-side definition: the population mean of a list of reals. -/
noncomputable def popMean (vals : List ℝ) : ℝ := vals.sum / vals.length

/-- Spec-side definition: the population variance (divisor = sample
size, not size − 1). -/
noncomputable def popVariance (vals : List ℝ) : ℝ :=
  ((vals.map (fun x => (x - popMean vals) ^ 2)).sum) / vals.length

/-! ## Concrete trace scenarios -/

/-- A trace-start notification carrying a string `traceId`. -/
def mkTrace (tid : String) : JValue := .obj [("traceId", .str tid)]

/-- A function span for tool `toolName`, optionally carrying a truthy
`error` field. -/
def mkFnSpan (tid toolName : String) (err : Bool) : JValue :=
  .obj ([("traceId", .str tid),
         ("spanData", .obj [("type", .str "function"), ("name", .str toolName)])] ++
        (if err then [("error", .str "boom")] else []))

/-- A function span whose span data has no string `name`. -/
def mkUnnamedFnSpan (tid : String) (err : Bool) (input : String) : JValue :=
  .obj ([("traceId", .str tid),
         ("spanData", .obj [("type", .str "function"), ("input", .str input)])] ++
        (if err then [("error", .str "boom")] else []))

/-- Start one trace and feed it the given spans. -/
def runScenario (tid : String) (spans : List JValue) : Collector :=
  spans.foldl onSpanEnd (onTraceStart Collector.empty (mkTrace tid))

/-! ## Statement-level definitions used by the claims -/

/-- The per-span retry bookkeeping the claim describes, for the trace
registered under `tid` after a function span for tool `T` with error
flag `err`. -/
def C1Conclusion (c : Collector) (tid T : String) (st : TraceState) (err : Bool) : Prop :=
  ∃ st', mapGet ((onSpanEnd c (mkFnSpan tid T err)).traces) tid = some st' ∧
    st'.toolCallCount = st.toolCallCount + 1 ∧
    st'.errors = st.errors + (if err then 1 else 0) ∧
    (err = true →
      (mapGet st'.pendingErrorsByTool T).getD 0
          = (mapGet st.pendingErrorsByTool T).getD 0 + 1 ∧
      st'.retries = st.retries) ∧
    (err = false →
      if (mapGet st.pendingErrorsByTool T).getD 0 > 0 then
        st'.retries = st.retries + 1 ∧
        (mapGet st'.pendingErrorsByTool T).getD 0 + 1
            = (mapGet st.pendingErrorsByTool T).getD 0
      else
        st'.retries = st.retries ∧
        (mapGet st'.pendingErrorsByTool T).getD 0
            = (mapGet st.pendingErrorsByTool T).getD 0)

/-- What `onSpanEnd` does to a registered trace's state for an
arbitrary span. -/
def C8Conclusion (c : Collector) (tid : String) (st : TraceState) (span : JValue) : Prop :=
  ∃ st', mapGet ((onSpanEnd c span).traces) tid = some st' ∧
    st'.errors = st.errors + (if spanHasError span then 1 else 0) ∧
    (spanTypeOf span ≠ some "function" →
      st'.toolCallCount = st.toolCallCount ∧ st'.retries = st.retries ∧
      st'.pendingErrorsByTool = st.pendingErrorsByTool) ∧
    (spanTypeOf span = some "function" → st'.toolCallCount = st.toolCallCount + 1)

/-- Example runs for the spec's `summarizeRuns` test: two native runs
with totals 100 and 200, one cli-wrapped run with total 150, all for the
same task. -/
def exampleRuns : List RunMetrics :=
  [{ taskId := "task-a", model := "default", agent := .mcp, runIndex := 0,
     totalTokens := 100, promptTokens := 50, completionTokens := 50, toolCallCount := 2,
     retries := 0, errors := 0, durationMs := 1000,
     timestamp := "2026-02-01T00:00:00.000Z", success := true, errorMessage := none },
   { taskId := "task-a", model := "default", agent := .mcp, runIndex := 1,
     totalTokens := 200, promptTokens := 80, completionTokens := 120, toolCallCount := 2,
     retries := 0, errors := 0, durationMs := 1000,
     timestamp := "2026-02-01T00:00:00.000Z", success := true, errorMessage := none },
   { taskId := "task-a", model := "default", agent := .cli, runIndex := 0,
     totalTokens := 150, promptTokens := 70, completionTokens := 80, toolCallCount := 2,
     retries := 0, errors := 0, durationMs := 1000,
     timestamp := "2026-02-01T00:00:00.000Z", success := true, errorMessage := none }]

/-- The native group produced by `groupRuns exampleRuns`: the first two
example runs under the key `"task-a::mcp"`. -/
def exampleMcpEntry : String × List RunMetrics := ("task-a::mcp", exampleRuns.take 2)

/-- Example rows for the spec's `summarizeDiffs` tests: one task with a
native row (`avgTotalTokens = 100`) and a cli row (`avgTotalTokens =
150`). -/
def exampleMcpRow : SummaryRow :=
  { taskId := "task-a", agent := "mcp", runs := 1, avgTotalTokens := 100,
    avgPromptTokens := 50, avgCompletionTokens := 50, avgToolCallCount := 2,
    avgRetries := 0, avgErrors := 0, avgDurationMs := 1000 }

def exampleCliRow : SummaryRow :=
  { taskId := "task-a", agent := "cli", runs := 1, avgTotalTokens := 150,
    avgPromptTokens := 70, avgCompletionTokens := 80, avgToolCallCount := 2,
    avgRetries := 0, avgErrors := 0, avgDurationMs := 1000 }

def exampleRows : List SummaryRow := [exampleMcpRow, exampleCliRow]

/-- Same, but with a zero native baseline for `avgTotalTokens`. -/
def exampleRowsZero : List SummaryRow :=
  [{ taskId := "task-a", agent := "mcp", runs := 1, avgTotalTokens := 0,
     avgPromptTokens := 0, avgCompletionTokens := 0, avgToolCallCount := 2,
     avgRetries := 0, avgErrors := 0, avgDurationMs := 1000 },
   { taskId := "task-a", agent := "cli", runs := 1, avgTotalTokens := 10,
     avgPromptTokens := 2, avgCompletionTokens := 8, avgToolCallCount := 2,
     avgRetries := 0, avgErrors := 0, avgDurationMs := 1000 }]

/-! ## Association-map lemmas -/

/-- A JS `Map` never holds two bindings for one key; assoc lists
reachable through `mapSet`/`mapDelete` from `[]` satisfy this. -/
def NodupKeys {α : Type} (m : List (String × α)) : Prop :=
  (m.map Prod.fst).Nodup

instance {α : Type} (m : List (String × α)) : Decidable (NodupKeys m) := by
  unfold NodupKeys; infer_instance

theorem mapGet_mapSet_self {α : Type} (m : List (String × α)) (k : String) (v : α) :
    mapGet (mapSet m k v) k = some v := by
  induction m with
  | nil => simp [mapGet, mapSet]
  | cons hd tl ih =>
    by_cases h : hd.1 = k <;> simp [mapGet, mapSet, h, ih]

theorem mapGet_mapSet_ne {α : Type} (m : List (String × α)) (k k' : String) (v : α)
    (h : k' ≠ k) : mapGet (mapSet m k v) k' = mapGet m k' := by
  induction m with
  | nil => simp [mapGet, mapSet, Ne.symm h]
  | cons hd tl ih =>
    by_cases hh : hd.1 = k
    · simp [mapGet, mapSet, hh, Ne.symm h]
    · by_cases hh' : hd.1 = k' <;> simp [mapGet, mapSet, hh, hh', ih, h]

theorem mapGet_eq_none_of_not_mem {α : Type} (m : List (String × α)) (k : String)
    (h : k ∉ m.map Prod.fst) : mapGet m k = none := by
  induction m with
  | nil => rfl
  | cons hd tl ih =>
    simp only [List.map_cons, List.mem_cons] at h
    push_neg at h
    simp [mapGet, Ne.symm h.1, ih h.2]

theorem mapGet_mapDelete_self {α : Type} (m : List (String × α)) (k : String)
    (h : NodupKeys m) : mapGet (mapDelete m k) k = none := by
  induction m with
  | nil => rfl
  | cons hd tl ih =>
    unfold NodupKeys at h
    simp only [List.map_cons, List.nodup_cons] at h
    by_cases hh : hd.1 = k
    · simpa [mapDelete, hh] using mapGet_eq_none_of_not_mem tl k (hh ▸ h.1)
    · simp [mapDelete, mapGet, hh, ih h.2]

/-! ## Span-probing lemmas for the concrete span shapes -/

theorem getSpanTraceId_mkFnSpan (tid toolName : String) (err : Bool) :
    getSpanTraceId (some (mkFnSpan tid toolName err)) = some tid := by
  cases err <;> rfl

theorem spanTypeOf_mkFnSpan (tid toolName : String) (err : Bool) :
    spanTypeOf (mkFnSpan tid toolName err) = some "function" := by
  cases err <;> rfl

theorem spanToolName_mkFnSpan (tid toolName : String) (err : Bool) :
    spanToolName (mkFnSpan tid toolName err) = toolName := by
  cases err <;> rfl

theorem spanHasError_mkFnSpan (tid toolName : String) (err : Bool) :
    spanHasError (mkFnSpan tid toolName err) = err := by
  cases err <;> rfl

/-- `onSpanEnd` on a span whose trace id resolves to a registered trace
rewrites that trace's state through `applySpan`. -/
theorem onSpanEnd_registered (c : Collector) (tid : String) (st : TraceState)
    (span : JValue) (h1 : getSpanTraceId (some span) = some tid)
    (h2 : mapGet c.traces tid = some st) :
    onSpanEnd c span = { c with traces := mapSet c.traces tid (applySpan st span) } := by
  simp only [onSpanEnd, h1, h2]

/-- `applySpan` on a named function span, in closed form. -/
theorem applySpan_mkFnSpan (st : TraceState) (tid toolName : String) (err : Bool) :
    applySpan st (mkFnSpan tid toolName err) =
      if err then
        { st with
            errors := st.errors + 1
            toolCallCount := st.toolCallCount + 1
            pendingErrorsByTool := mapSet st.pendingErrorsByTool toolName
              ((mapGet st.pendingErrorsByTool toolName).getD 0 + 1) }
      else if (mapGet st.pendingErrorsByTool toolName).getD 0 > 0 then
        { st with
            toolCallCount := st.toolCallCount + 1
            retries := st.retries + 1
            pendingErrorsByTool := mapSet st.pendingErrorsByTool toolName
              ((mapGet st.pendingErrorsByTool toolName).getD 0 - 1) }
      else { st with toolCallCount := st.toolCallCount + 1 } := by
  cases err <;>
    simp [applySpan, spanHasError_mkFnSpan, spanTypeOf_mkFnSpan, spanToolName_mkFnSpan]

/-! ## Claim C1: retry inference -/

/-- Claim C1: within one registered trace, an erroring function span for
tool `T` increments `pendingErrors[T]` and attributes no retry; a
non-erroring one increments the retry count and decrements
`pendingErrors[T]` exactly when `pendingErrors[T] > 0`, and otherwise
changes neither.  Consequently the span orders `[error, success]`,
`[success, error]` and `[error, error, success]` for tool `"X"` yield
the spec's `(toolCallCount, errors, retries)` triples `(2,1,1)`,
`(2,1,0)` and `(3,2,1)`. -/
theorem claim_C1 (c : Collector) (tid T : String) (st : TraceState) (err : Bool)
    (h : mapGet c.traces tid = some st) :
    C1Conclusion c tid T st err ∧
    (consumeLatest (runScenario "t1"
        [mkFnSpan "t1" "X" true, mkFnSpan "t1" "X" false])).1
      = some { traceId := "t1", name := none, toolCallCount := 2, errors := 1, retries := 1 } ∧
    (consumeLatest (runScenario "t1"
        [mkFnSpan "t1" "X" false, mkFnSpan "t1" "X" true])).1
      = some { traceId := "t1", name := none, toolCallCount := 2, errors := 1, retries := 0 } ∧
    (consumeLatest (runScenario "t1"
        [mkFnSpan "t1" "X" true, mkFnSpan "t1" "X" true, mkFnSpan "t1" "X" false])).1
      = some { traceId := "t1", name := none, toolCallCount := 3, errors := 2, retries := 1 } := by
  refine ⟨?_, by decide, by decide, by decide⟩
  refine ⟨applySpan st (mkFnSpan tid T err), ?_, ?_⟩
  · rw [onSpanEnd_registered c tid st _ (getSpanTraceId_mkFnSpan tid T err) h]
    exact mapGet_mapSet_self _ _ _
  · rw [applySpan_mkFnSpan]
    cases err with
    | true => simp [mapGet_mapSet_self]
    | false =>
      by_cases hp : (mapGet st.pendingErrorsByTool T).getD 0 > 0
      · simp only [if_pos hp]
        simp [mapGet_mapSet_self, hp]
        omega
      · simp [if_neg hp]

theorem claim_C1_witness :
    mapGet ((onTraceStart Collector.empty (mkTrace "t1")).traces) "t1"
        = some { traceId := "t1", name := none, toolCallCount := 0, errors := 0,
                 retries := 0, pendingErrorsByTool := [] } ∧
    C1Conclusion (onTraceStart Collector.empty (mkTrace "t1")) "t1" "X"
      { traceId := "t1", name := none, toolCallCount := 0, errors := 0,
        retries := 0, pendingErrorsByTool := [] } true :=
  ⟨by decide, (claim_C1 _ "t1" "X" _ true (by decide)).1⟩

/-! ## Claim C3: destructive read -/

/-- Claim C3: `consumeLatest` returns the pending latest trace's metrics
and deletes its state, otherwise returns nothing; whenever it returns
data, an immediate second call returns nothing. -/
theorem claim_C3 (c : Collector) (hwf : NodupKeys c.traces) :
    (∀ tid st, c.latestTraceId = some tid → mapGet c.traces tid = some st →
        consumeLatest c = (some st.toMetrics, { c with traces := mapDelete c.traces tid })) ∧
    (c.latestTraceId = none → consumeLatest c = (none, c)) ∧
    (∀ tid, c.latestTraceId = some tid → mapGet c.traces tid = none →
        consumeLatest c = (none, c)) ∧
    (∀ m c', consumeLatest c = (some m, c') → (consumeLatest c').1 = none) := by
  refine ⟨?_, ?_, ?_, ?_⟩
  · intro tid st hl hg
    simp only [consumeLatest, hl, hg]
  · intro hl
    simp only [consumeLatest, hl]
  · intro tid hl hg
    simp only [consumeLatest, hl, hg]
  · intro m c' hc
    cases hl : c.latestTraceId with
    | none => simp [consumeLatest, hl] at hc
    | some tid =>
      cases hg : mapGet c.traces tid with
      | none => simp [consumeLatest, hl, hg] at hc
      | some record =>
        simp only [consumeLatest, hl, hg, Prod.mk.injEq] at hc
        obtain ⟨-, hc2⟩ := hc
        subst hc2
        simp [consumeLatest, hl, mapGet_mapDelete_self c.traces tid hwf]

theorem claim_C3_witness :
    NodupKeys (onTraceStart Collector.empty (mkTrace "t1")).traces ∧
    (consumeLatest { traces := [], latestTraceId := some "t1" }).1 = none :=
  ⟨by decide,
    (claim_C3 (onTraceStart Collector.empty (mkTrace "t1")) (by decide)).2.2.2
      { traceId := "t1", name := none, toolCallCount := 0, errors := 0, retries := 0 }
      { traces := [], latestTraceId := some "t1" } (by decide)⟩

/-! ## Claim C8: error flag vs. span type -/

/-- Claim C8: for a span resolving to a registered trace, the error
count increments exactly when the span carries an error indicator,
regardless of span type; tool-call count (and the retry bookkeeping)
changes only for spans whose type discriminator is `"function"`. -/
theorem claim_C8 (c : Collector) (tid : String) (st : TraceState) (span : JValue)
    (h1 : getSpanTraceId (some span) = some tid)
    (h2 : mapGet c.traces tid = some st) :
    C8Conclusion c tid st span := by
  refine ⟨applySpan st span, ?_, ?_, ?_, ?_⟩
  · rw [onSpanEnd_registered c tid st span h1 h2]
    exact mapGet_mapSet_self _ _ _
  · unfold applySpan
    by_cases herr : spanHasError span <;>
      by_cases htype : spanTypeOf span = some "function" <;>
        simp [herr, htype] <;> split <;> rfl
  · intro htype
    unfold applySpan
    by_cases herr : spanHasError span <;> simp [herr, htype]
  · intro htype
    unfold applySpan
    by_cases herr : spanHasError span <;> simp [herr, htype] <;> split <;> rfl

theorem claim_C8_witness :
    getSpanTraceId (some (JValue.obj [("traceId", JValue.str "t1"),
        ("spanData", JValue.obj [("type", JValue.str "generation")]),
        ("error", JValue.str "x")])) = some "t1" ∧
    mapGet ((onTraceStart Collector.empty (mkTrace "t1")).traces) "t1"
        = some { traceId := "t1", name := none, toolCallCount := 0, errors := 0,
                 retries := 0, pendingErrorsByTool := [] } ∧
    C8Conclusion (onTraceStart Collector.empty (mkTrace "t1")) "t1"
      { traceId := "t1", name := none, toolCallCount := 0, errors := 0,
        retries := 0, pendingErrorsByTool := [] }
      (JValue.obj [("traceId", JValue.str "t1"),
        ("spanData", JValue.obj [("type", JValue.str "generation")]),
        ("error", JValue.str "x")]) :=
  ⟨by decide, by decide, claim_C8 _ _ _ _ (by decide) (by decide)⟩

/-! ## Claim C9: unnamed function spans share the `"unknown"` tool key -/

/-- Claim C9: a function span whose span data lacks a string `name` is
keyed under the shared tool name `"unknown"` for the retry heuristic;
hence an erroring unnamed function span followed by a non-erroring
unnamed one (here with different payloads, standing for different
tools) counts as one inferred retry. -/
theorem claim_C9 :
    (∀ span, getStringProp (spanDataOf span) "name" = none →
        spanToolName span = "unknown") ∧
    (∀ st span, spanTypeOf span = some "function" → spanHasError span = true →
        getStringProp (spanDataOf span) "name" = none →
        (mapGet (applySpan st span).pendingErrorsByTool "unknown").getD 0
          = (mapGet st.pendingErrorsByTool "unknown").getD 0 + 1) ∧
    (consumeLatest (runScenario "t1"
        [mkUnnamedFnSpan "t1" true "alpha", mkUnnamedFnSpan "t1" false "beta"])).1
      = some { traceId := "t1", name := none, toolCallCount := 2, errors := 1, retries := 1 } := by
  refine ⟨?_, ?_, by decide⟩
  · intro span hname
    unfold spanToolName
    rw [hname]
    rfl
  · intro st span htype herr hname
    have htool : spanToolName span = "unknown" := by
      unfold spanToolName; rw [hname]; rfl
    unfold applySpan
    simp [htype, herr, htool, mapGet_mapSet_self]

theorem claim_C9_witness :
    getStringProp (spanDataOf (mkUnnamedFnSpan "t1" true "alpha")) "name" = none ∧
    spanToolName (mkUnnamedFnSpan "t1" true "alpha") = "unknown" :=
  ⟨by decide, claim_C9.1 _ (by decide)⟩

/-! ## Claim C2: failed-run error counts (corrected) -/

/-- Counterexample to claim C2 as stated: a rejected execution whose
consumed trace reports `errors = 0` is recorded failed with
`errors = 0`, because `trace?.errors ?? 1` only substitutes `1` when the
collector reports no trace at all, not when it reports zero errors. -/
theorem claim_C2_counterexample :
    (failedRunMetrics "task-a" "default" AgentKind.mcp 0
        (some { traceId := "t1", name := none, toolCallCount := 2, errors := 0, retries := 0 })
        1000 "2026-02-01T00:00:00.000Z" "boom").success = false ∧
    (failedRunMetrics "task-a" "default" AgentKind.mcp 0
        (some { traceId := "t1", name := none, toolCallCount := 2, errors := 0, retries := 0 })
        1000 "2026-02-01T00:00:00.000Z" "boom").errors = 0 := by
  exact ⟨rfl, rfl⟩

/-- Claim C2 (amended): every failed record has `success = false` and an
error message; its error count is `1` when the Trace Collector reports
no pending trace, and otherwise is the consumed trace's error count
verbatim (so it is `0` when the trace recorded no errors, and `≥ 1`
exactly when the trace recorded at least one). -/
theorem claim_C2 (taskId model : String) (agent : AgentKind) (runIndex : Nat)
    (trace : Option TraceMetrics) (durationMs : ℚ) (timestamp message : String) :
    (failedRunMetrics taskId model agent runIndex trace durationMs timestamp message).success
        = false ∧
    (failedRunMetrics taskId model agent runIndex trace durationMs timestamp message).errorMessage
        = some message ∧
    (trace = none →
      (failedRunMetrics taskId model agent runIndex trace durationMs timestamp message).errors = 1) ∧
    (∀ t, trace = some t →
      (failedRunMetrics taskId model agent runIndex trace durationMs timestamp message).errors
          = (t.errors : ℚ)) ∧
    (∀ t, trace = some t → 1 ≤ t.errors →
      1 ≤ (failedRunMetrics taskId model agent runIndex trace durationMs timestamp message).errors) := by
  refine ⟨rfl, rfl, ?_, ?_, ?_⟩
  · intro h; subst h; rfl
  · intro t h; subst h; rfl
  · intro t h h1
    subst h
    show (1 : ℚ) ≤ (t.errors : ℚ)
    exact_mod_cast h1

theorem claim_C2_witness :
    ((none : Option TraceMetrics) = none →
      (failedRunMetrics "task-a" "default" AgentKind.mcp 0 none 1000
          "2026-02-01T00:00:00.000Z" "boom").errors = 1) ∧
    (failedRunMetrics "task-a" "default" AgentKind.mcp 0 none 1000
        "2026-02-01T00:00:00.000Z" "boom").errors = 1 :=
  ⟨(claim_C2 "task-a" "default" AgentKind.mcp 0 none 1000
      "2026-02-01T00:00:00.000Z" "boom").2.2.1,
   (claim_C2 "task-a" "default" AgentKind.mcp 0 none 1000
      "2026-02-01T00:00:00.000Z" "boom").2.2.1 rfl⟩

/-! ## Claim C10: failed-run token and trace fields -/

/-- Claim C10: a failed record always zeroes the three token fields,
while tool-call count and retries come from the consumed trace metrics,
defaulting to `0` when no trace was pending. -/
theorem claim_C10 (taskId model : String) (agent : AgentKind) (runIndex : Nat)
    (trace : Option TraceMetrics) (durationMs : ℚ) (timestamp message : String) :
    (failedRunMetrics taskId model agent runIndex trace durationMs timestamp message).totalTokens
        = 0 ∧
    (failedRunMetrics taskId model agent runIndex trace durationMs timestamp message).promptTokens
        = 0 ∧
    (failedRunMetrics taskId model agent runIndex trace durationMs timestamp message).completionTokens
        = 0 ∧
    (∀ t, trace = some t →
      (failedRunMetrics taskId model agent runIndex trace durationMs timestamp message).toolCallCount
          = (t.toolCallCount : ℚ) ∧
      (failedRunMetrics taskId model agent runIndex trace durationMs timestamp message).retries
          = (t.retries : ℚ)) ∧
    (trace = none →
      (failedRunMetrics taskId model agent runIndex trace durationMs timestamp message).toolCallCount
          = 0 ∧
      (failedRunMetrics taskId model agent runIndex trace durationMs timestamp message).retries = 0) := by
  refine ⟨rfl, rfl, rfl, ?_, ?_⟩
  · intro t h; subst h; exact ⟨rfl, rfl⟩
  · intro h; subst h; exact ⟨rfl, rfl⟩

/-! ## Grouping lemmas for the aggregator -/

theorem mem_keys_mapSet {α : Type} (m : List (String × α)) (k : String) (v : α)
    (a : String) : a ∈ (mapSet m k v).map Prod.fst ↔ a ∈ m.map Prod.fst ∨ a = k := by
  induction m with
  | nil => simp [mapSet]
  | cons hd tl ih =>
    obtain ⟨k1, v1⟩ := hd
    by_cases hh : k1 = k
    · subst hh
      simp only [mapSet, if_pos rfl, eq_self_iff_true, if_true, List.map_cons, List.mem_cons]
      tauto
    · simp only [mapSet, if_neg hh, List.map_cons, List.mem_cons, ih]
      tauto

theorem nodupKeys_mapSet {α : Type} (m : List (String × α)) (k : String) (v : α)
    (h : NodupKeys m) : NodupKeys (mapSet m k v) := by
  induction m with
  | nil => simp [NodupKeys, mapSet]
  | cons hd tl ih =>
    obtain ⟨k1, v1⟩ := hd
    unfold NodupKeys at h ⊢
    simp only [List.map_cons, List.nodup_cons] at h
    by_cases hh : k1 = k
    · subst hh
      simp only [mapSet, if_pos rfl, eq_self_iff_true, if_true, List.map_cons, List.nodup_cons]
      exact ⟨h.1, h.2⟩
    · simp only [mapSet, if_neg hh, List.map_cons, List.nodup_cons]
      refine ⟨?_, ih h.2⟩
      rw [mem_keys_mapSet]
      push_neg
      exact ⟨h.1, hh⟩

theorem mem_iff_mapGet {α : Type} (m : List (String × α)) (k : String) (v : α)
    (h : NodupKeys m) : (k, v) ∈ m ↔ mapGet m k = some v := by
  induction m with
  | nil => simp [mapGet]
  | cons hd tl ih =>
    obtain ⟨k1, v1⟩ := hd
    unfold NodupKeys at h
    simp only [List.map_cons, List.nodup_cons] at h
    constructor
    · intro hm
      rcases List.mem_cons.mp hm with heq | htl
      · injection heq with h1 h2
        subst h1
        subst h2
        simp [mapGet]
      · have hk : k ∈ tl.map Prod.fst := List.mem_map.mpr ⟨(k, v), htl, rfl⟩
        have hne : k1 ≠ k := fun hc => h.1 (hc ▸ hk)
        simp only [mapGet, if_neg hne]
        exact (ih h.2).mp htl
    · intro hg
      by_cases hh : k1 = k
      · subst hh
        simp only [mapGet, if_pos rfl, eq_self_iff_true, if_true] at hg
        obtain rfl : v1 = v := Option.some_injective _ hg
        exact List.mem_cons_self _ _
      · simp only [mapGet, if_neg hh] at hg
        exact List.mem_cons_of_mem _ ((ih h.2).mpr hg)

theorem mapGet_groupRunsFold (runs : List RunMetrics) :
    ∀ (m : List (String × List RunMetrics)) (k : String),
      mapGet (runs.foldl
          (fun m run => mapSet m (runKey run) ((mapGet m (runKey run)).getD [] ++ [run])) m) k
        = (runs.filter (fun r => runKey r = k)).foldl
            (fun b run => some (b.getD [] ++ [run])) (mapGet m k) := by
  induction runs with
  | nil => intro m k; rfl
  | cons r rest ih =>
    intro m k
    simp only [List.foldl_cons]
    rw [ih]
    by_cases h : runKey r = k
    · subst h
      rw [List.filter_cons_of_pos (by simp), List.foldl_cons, mapGet_mapSet_self]
    · rw [List.filter_cons_of_neg (by simp [h]), mapGet_mapSet_ne _ _ _ _ (Ne.symm h)]

theorem nodupKeys_groupRunsFold (runs : List RunMetrics) :
    ∀ m : List (String × List RunMetrics), NodupKeys m →
      NodupKeys (runs.foldl
        (fun m run => mapSet m (runKey run) ((mapGet m (runKey run)).getD [] ++ [run])) m) := by
  induction runs with
  | nil => intro m hm; exact hm
  | cons r rest ih =>
    intro m hm
    exact ih _ (nodupKeys_mapSet _ _ _ hm)

theorem nodupKeys_groupRuns (runs : List RunMetrics) : NodupKeys (groupRuns runs) :=
  nodupKeys_groupRunsFold runs [] (by simp [NodupKeys])

theorem groupAppend_foldl (l : List RunMetrics) :
    ∀ acc : List RunMetrics,
      l.foldl (fun b run => some (b.getD [] ++ [run])) (some acc) = some (acc ++ l) := by
  induction l with
  | nil => intro acc; simp
  | cons x rest ih => intro acc; simp [ih]

theorem mapGet_groupRuns (runs : List RunMetrics) (k : String) :
    mapGet (groupRuns runs) k =
      if runs.filter (fun r => runKey r = k) = [] then none
      else some (runs.filter (fun r => runKey r = k)) := by
  unfold groupRuns
  rw [mapGet_groupRunsFold]
  cases hf : runs.filter (fun r => runKey r = k) with
  | nil => simp [mapGet]
  | cons x l =>
    simp only [List.foldl_cons, mapGet, Option.getD_none]
    rw [groupAppend_foldl]
    simp

/-! ## Claim C4: summarizeRuns grouping and averaging -/

theorem foldl_add_eq_sum {R : Type} [AddCommMonoid R] (l : List R) :
    ∀ a : R, l.foldl (· + ·) a = a + l.sum := by
  induction l with
  | nil => intro a; simp
  | cons x rest ih => intro a; simp [ih, add_assoc]

theorem average_eq_listMean (values : List ℚ) : average values = listMean values := by
  unfold average listMean
  cases values with
  | nil => simp
  | cons x l =>
    rw [if_neg (by simp)]
    rw [foldl_add_eq_sum, zero_add]

/-- Claim C4: `summarizeRuns` groups its input by the composite
`taskId::agent` key (the group for key `k` is exactly the sub-list of
runs with that key, nonempty, and keys are unique), and emits exactly
one row per group — the output is the one-to-one image of the group
list — whose `runs` field is the group size and whose seven `avg`
fields are the arithmetic means of the corresponding columns; on the
spec's example the native row has `runs = 2, avgTotalTokens = 150` and
the cli row has `runs = 1, avgTotalTokens = 150`. -/
theorem claim_C4 (runs : List RunMetrics) :
    summarizeRuns runs = (groupRuns runs).map rowOfEntry ∧
    NodupKeys (groupRuns runs) ∧
    (∀ k, mapGet (groupRuns runs) k =
      if runs.filter (fun r => runKey r = k) = [] then none
      else some (runs.filter (fun r => runKey r = k))) ∧
    (∀ entry, entry ∈ groupRuns runs →
      entry.2 ≠ [] ∧ entry.2 = runs.filter (fun r => runKey r = entry.1) ∧
      rowOfEntry entry ∈ summarizeRuns runs ∧
      (rowOfEntry entry).runs = entry.2.length ∧
      (rowOfEntry entry).avgTotalTokens = listMean (entry.2.map (·.totalTokens)) ∧
      (rowOfEntry entry).avgPromptTokens = listMean (entry.2.map (·.promptTokens)) ∧
      (rowOfEntry entry).avgCompletionTokens = listMean (entry.2.map (·.completionTokens)) ∧
      (rowOfEntry entry).avgToolCallCount = listMean (entry.2.map (·.toolCallCount)) ∧
      (rowOfEntry entry).avgRetries = listMean (entry.2.map (·.retries)) ∧
      (rowOfEntry entry).avgErrors = listMean (entry.2.map (·.errors)) ∧
      (rowOfEntry entry).avgDurationMs = listMean (entry.2.map (·.durationMs))) ∧
    (summarizeRuns exampleRuns).map
        (fun row => (row.taskId, row.agent, row.runs, row.avgTotalTokens))
      = [("task-a", "mcp", 2, (150 : ℚ)), ("task-a", "cli", 1, (150 : ℚ))] := by
  refine ⟨rfl, nodupKeys_groupRuns runs, mapGet_groupRuns runs, ?_, ?_⟩
  · intro entry hmem
    obtain ⟨k, group⟩ := entry
    have hget : mapGet (groupRuns runs) k = some group :=
      (mem_iff_mapGet _ _ _ (nodupKeys_groupRuns runs)).mp hmem
    rw [mapGet_groupRuns] at hget
    by_cases hf : runs.filter (fun r => runKey r = k) = []
    · rw [if_pos hf] at hget; exact absurd hget (by simp)
    · rw [if_neg hf] at hget
      obtain rfl : group = runs.filter (fun r => runKey r = k) :=
        (Option.some_injective _ hget).symm
      refine ⟨hf, rfl, List.mem_map.mpr ⟨_, hmem, rfl⟩, rfl, ?_, ?_, ?_, ?_, ?_, ?_, ?_⟩ <;>
        exact average_eq_listMean _
  · simp only [summarizeRuns, groupRuns, exampleRuns, mapGet, mapSet, runKey,
      AgentKind.toKeyString, List.foldl_cons, List.foldl_nil]
    simp
    simp [rowOfEntry, average,
      (by decide : jsSplit "task-a::mcp" "::" = ["task-a", "mcp"]),
      (by decide : jsSplit "task-a::cli" "::" = ["task-a", "cli"])]
    norm_num

theorem claim_C4_witness :
    exampleMcpEntry ∈ groupRuns exampleRuns ∧
    (rowOfEntry exampleMcpEntry).runs = exampleMcpEntry.2.length := by
  have hmem : exampleMcpEntry ∈ groupRuns exampleRuns := by
    simp only [exampleMcpEntry, groupRuns, exampleRuns, mapGet, mapSet, runKey,
      AgentKind.toKeyString, List.foldl_cons, List.foldl_nil, List.take]
    simp
  exact ⟨hmem, ((claim_C4 exampleRuns).2.2.2.1 _ hmem).2.2.2.1⟩

/-! ## Claim C5: summarizeDiffs pairing -/

theorem nodupKeys_groupRowsFold (rows : List SummaryRow) :
    ∀ m : List (String × (Option SummaryRow × Option SummaryRow)), NodupKeys m →
      NodupKeys (rows.foldl
        (fun m row => mapSet m row.taskId (rowUpd row (mapGet m row.taskId))) m) := by
  induction rows with
  | nil => intro m hm; exact hm
  | cons r rest ih => intro m hm; exact ih _ (nodupKeys_mapSet _ _ _ hm)

theorem nodupKeys_groupRows (rows : List SummaryRow) : NodupKeys (groupRows rows) :=
  nodupKeys_groupRowsFold rows [] (by simp [NodupKeys])

theorem taskId_mem_diffsOfEntry (entry : String × (Option SummaryRow × Option SummaryRow))
    (d : SummaryDiff) (hd : d ∈ diffsOfEntry entry) : d.taskId = entry.1 := by
  obtain ⟨t, o1, o2⟩ := entry
  cases o1 with
  | none => cases o2 <;> simp [diffsOfEntry] at hd
  | some mcpRow =>
    cases o2 with
    | none => simp [diffsOfEntry] at hd
    | some cliRow =>
      simp only [diffsOfEntry, List.mem_map] at hd
      obtain ⟨mn, -, rfl⟩ := hd
      rfl

theorem filter_taskId_diffsOfEntry (t : String)
    (entry : String × (Option SummaryRow × Option SummaryRow)) :
    (diffsOfEntry entry).filter (fun d => d.taskId = t)
      = if entry.1 = t then diffsOfEntry entry else [] := by
  by_cases h : entry.1 = t
  · rw [if_pos h]
    apply List.filter_eq_self.mpr
    intro d hd
    simp [taskId_mem_diffsOfEntry entry d hd, h]
  · rw [if_neg h]
    apply List.filter_eq_nil_iff.mpr
    intro d hd
    simp [taskId_mem_diffsOfEntry entry d hd, h]

theorem filter_taskId_flatMap (t : String) :
    ∀ gs : List (String × (Option SummaryRow × Option SummaryRow)), NodupKeys gs →
      (gs.flatMap diffsOfEntry).filter (fun d => d.taskId = t)
        = (match mapGet gs t with
           | some e => diffsOfEntry (t, e)
           | none => []) := by
  intro gs
  induction gs with
  | nil => intro _; rfl
  | cons g tl ih =>
    intro hnd
    obtain ⟨t', e⟩ := g
    unfold NodupKeys at hnd
    simp only [List.map_cons, List.nodup_cons] at hnd
    rw [List.flatMap_cons, List.filter_append, filter_taskId_diffsOfEntry]
    by_cases h : t' = t
    · subst h
      rw [if_pos rfl]
      have htl : mapGet tl t' = none := mapGet_eq_none_of_not_mem tl t' hnd.1
      rw [ih (hnd.2)]
      rw [htl]
      simp [mapGet]
    · rw [if_neg h]
      simp only [List.nil_append]
      rw [ih (hnd.2)]
      simp [mapGet, h]

theorem length_filter_metric (t : String) (mcpRow cliRow : SummaryRow)
    (metric : MetricName) :
    ((metricNames.map (mkDiff t mcpRow cliRow)).filter
        (fun d => d.metric = metric)).length = 1 := by
  rw [List.filter_map, List.length_map]
  have hcomp : ∀ mn : MetricName, (mkDiff t mcpRow cliRow mn).metric = mn := fun _ => rfl
  cases metric <;> simp [metricNames, Function.comp, hcomp]

/-- Claim C5: for every group holding both a native and a cli row, the
diffs with that task id are exactly one per metric in the fixed
seven-metric list, each with `delta = cli − native` and
`percentChange = native == 0 ? 0 : delta/native*100`; a group missing a
variant contributes no diff at all.  On the spec's examples the
`avgTotalTokens` diff of (native 100, cli 150) is
`mcp=100, cli=150, delta=50, percentChange=50`, and a zero native
baseline with cli 10 gives `percentChange = 0`. -/
theorem claim_C5 (rows : List SummaryRow) :
    summarizeDiffs rows = (groupRows rows).flatMap diffsOfEntry ∧
    NodupKeys (groupRows rows) ∧
    (∀ t mcpRow cliRow, (t, (some mcpRow, some cliRow)) ∈ groupRows rows →
      (summarizeDiffs rows).filter (fun d => d.taskId = t)
          = metricNames.map (mkDiff t mcpRow cliRow) ∧
      (∀ metric, (((summarizeDiffs rows).filter (fun d => d.taskId = t)).filter
          (fun d => d.metric = metric)).length = 1)) ∧
    (∀ t e, (t, e) ∈ groupRows rows → e.1 = none ∨ e.2 = none →
      (summarizeDiffs rows).filter (fun d => d.taskId = t) = []) ∧
    (∀ t mcpRow cliRow metric,
      (mkDiff t mcpRow cliRow metric).mcp = metricValue mcpRow metric ∧
      (mkDiff t mcpRow cliRow metric).cli = metricValue cliRow metric ∧
      (mkDiff t mcpRow cliRow metric).delta
          = metricValue cliRow metric - metricValue mcpRow metric ∧
      (mkDiff t mcpRow cliRow metric).percentChange
          = (if metricValue mcpRow metric = 0 then 0
             else (metricValue cliRow metric - metricValue mcpRow metric)
                    / metricValue mcpRow metric * 100)) ∧
    (summarizeDiffs exampleRows).filter (fun d => d.metric = MetricName.avgTotalTokens)
        = [{ taskId := "task-a", metric := MetricName.avgTotalTokens, mcp := 100,
             cli := 150, delta := 50, percentChange := 50 }] ∧
    (summarizeDiffs exampleRowsZero).filter (fun d => d.metric = MetricName.avgTotalTokens)
        = [{ taskId := "task-a", metric := MetricName.avgTotalTokens, mcp := 0,
             cli := 10, delta := 10, percentChange := 0 }] := by
  refine ⟨rfl, nodupKeys_groupRows rows, ?_, ?_, ?_, ?_, ?_⟩
  · intro t mcpRow cliRow hmem
    have hget : mapGet (groupRows rows) t = some (some mcpRow, some cliRow) :=
      (mem_iff_mapGet _ _ _ (nodupKeys_groupRows rows)).mp hmem
    have hfilter : (summarizeDiffs rows).filter (fun d => d.taskId = t)
        = diffsOfEntry (t, (some mcpRow, some cliRow)) := by
      unfold summarizeDiffs
      rw [filter_taskId_flatMap t (groupRows rows) (nodupKeys_groupRows rows), hget]
    refine ⟨hfilter, ?_⟩
    intro metric
    rw [hfilter]
    exact length_filter_metric t mcpRow cliRow metric
  · intro t e hmem hnone
    have hget : mapGet (groupRows rows) t = some e :=
      (mem_iff_mapGet _ _ _ (nodupKeys_groupRows rows)).mp hmem
    unfold summarizeDiffs
    rw [filter_taskId_flatMap t (groupRows rows) (nodupKeys_groupRows rows), hget]
    obtain ⟨o1, o2⟩ := e
    rcases hnone with h | h
    · obtain rfl : o1 = none := h
      rfl
    · obtain rfl : o2 = none := h
      cases o1 <;> rfl
  · intro t mcpRow cliRow metric
    exact ⟨rfl, rfl, rfl, rfl⟩
  · simp only [summarizeDiffs, groupRows, exampleRows, exampleMcpRow, exampleCliRow,
      mapGet, mapSet, rowUpd, List.foldl_cons, List.foldl_nil]
    try simp
    try simp [diffsOfEntry, metricNames, mkDiff, metricValue]
    try norm_num
  · simp only [summarizeDiffs, groupRows, exampleRowsZero, mapGet, mapSet, rowUpd,
      List.foldl_cons, List.foldl_nil]
    try simp
    try simp [diffsOfEntry, metricNames, mkDiff, metricValue]
    try norm_num

theorem claim_C5_witness :
    ("task-a",
      ((some exampleMcpRow, some exampleCliRow) :
        Option SummaryRow × Option SummaryRow)) ∈ groupRows exampleRows ∧
    (summarizeDiffs exampleRows).filter (fun d => d.taskId = "task-a")
      = metricNames.map (mkDiff "task-a" exampleMcpRow exampleCliRow) := by
  have hmem : ("task-a",
      ((some exampleMcpRow, some exampleCliRow) :
        Option SummaryRow × Option SummaryRow)) ∈ groupRows exampleRows := by
    simp only [groupRows, exampleRows, mapGet, mapSet, rowUpd,
      List.foldl_cons, List.foldl_nil]
    simp [exampleMcpRow, exampleCliRow]
  exact ⟨hmem, ((claim_C5 exampleRows).2.2.1 "task-a" _ _ hmem).1⟩

/-! ## Claim C7: meanStd -/

theorem foldl_add_map_eq_sum {α R : Type} [AddCommMonoid R] (f : α → R) (l : List α) :
    ∀ a : R, l.foldl (fun acc x => acc + f x) a = a + (l.map f).sum := by
  induction l with
  | nil => intro a; simp
  | cons x rest ih => intro a; simp [ih, add_assoc]

/-- Claim C7: on a non-empty list `meanStd` returns the population mean
and the population standard deviation (variance divisor = sample size);
`meanStd []` is `{mean 0, std 0}`, and on `[1,2,3,4]` the mean is `2.5`
and the standard deviation lies strictly between `1.118` and `1.1181`
(≈ 1.1180). -/
theorem claim_C7 (vals : List ℝ) :
    (vals ≠ [] →
      meanStd vals = ⟨popMean vals, Real.sqrt (popVariance vals)⟩) ∧
    meanStd [] = ⟨0, 0⟩ ∧
    (meanStd [1, 2, 3, 4]).mean = 2.5 ∧
    1.118 < (meanStd [1, 2, 3, 4]).std ∧ (meanStd [1, 2, 3, 4]).std < 1.1181 := by
  have heval : ∀ l : List ℝ, l ≠ [] →
      meanStd l = ⟨popMean l, Real.sqrt (popVariance l)⟩ := by
    intro l hne
    have hlen : ¬ l.length = 0 := fun h => hne (List.length_eq_zero.mp h)
    have hmean : l.foldl (· + ·) (0 : ℝ) / (l.length : ℝ) = popMean l := by
      rw [foldl_add_eq_sum, zero_add]; rfl
    have hvar : l.foldl (fun a b => a + (b - popMean l) ^ 2) (0 : ℝ) / (l.length : ℝ)
        = popVariance l := by
      rw [foldl_add_map_eq_sum (fun x => (x - popMean l) ^ 2), zero_add]; rfl
    simp only [meanStd, if_neg hlen, hmean, hvar]
  have hstd : (meanStd [1, 2, 3, 4]).std = Real.sqrt (5 / 4) := by
    rw [heval [1, 2, 3, 4] (by simp)]
    have h54 : popVariance [1, 2, 3, 4] = 5 / 4 := by
      have hm : popMean [1, 2, 3, 4] = 5 / 2 := by
        simp [popMean]; norm_num
      simp [popVariance, hm]
      norm_num
    rw [h54]
  refine ⟨heval vals, rfl, ?_, ?_, ?_⟩
  · rw [heval [1, 2, 3, 4] (by simp)]
    show popMean [1, 2, 3, 4] = 2.5
    simp [popMean]
    norm_num
  · rw [hstd, Real.lt_sqrt (by norm_num : (0 : ℝ) ≤ 1.118)]
    norm_num
  · rw [hstd, Real.sqrt_lt' (by norm_num : (0 : ℝ) < 1.1181)]
    norm_num

/-! ## Claim C6: wilsonInterval -/

theorem claim_C7_witness :
    ([1, 2, 3, 4] : List ℝ) ≠ [] ∧
    meanStd [1, 2, 3, 4]
      = ⟨popMean [1, 2, 3, 4], Real.sqrt (popVariance [1, 2, 3, 4])⟩ :=
  ⟨by simp, (claim_C7 [1, 2, 3, 4]).1 (by simp)⟩

/-- Claim C6: `wilsonInterval` returns all zeroes when `total = 0`; for
`0 ≤ successes ≤ total` the result satisfies
`0 ≤ low ≤ center ≤ high ≤ 1`; and `wilsonInterval 8 10` has its center
strictly between `0.7` and `0.9`. -/
theorem claim_C6 (s t : ℝ) (hs : 0 ≤ s) (hst : s ≤ t) :
    (t = 0 → wilsonInterval s t = ⟨0, 0, 0⟩) ∧
    0 ≤ (wilsonInterval s t).low ∧
    (wilsonInterval s t).low ≤ (wilsonInterval s t).center ∧
    (wilsonInterval s t).center ≤ (wilsonInterval s t).high ∧
    (wilsonInterval s t).high ≤ 1 ∧
    0.7 < (wilsonInterval 8 10).center ∧ (wilsonInterval 8 10).center < 0.9 := by
  have hconc : 0.7 < (wilsonInterval 8 10).center ∧ (wilsonInterval 8 10).center < 0.9 := by
    constructor <;>
      (simp only [wilsonInterval, if_neg (by norm_num : (10 : ℝ) ≠ 0)]; norm_num)
  refine ⟨fun ht => by simp [wilsonInterval, ht], ?_, ?_, ?_, ?_, hconc.1, hconc.2⟩ <;>
    (by_cases ht : t = 0;
     · simp [wilsonInterval, ht]
     · have htpos : 0 < t := lt_of_le_of_ne (hs.trans hst) (Ne.symm ht)
       have hphat0 : 0 ≤ s / t := div_nonneg hs htpos.le
       have hphat1 : s / t ≤ 1 := (div_le_one htpos).mpr hst
       have hdenom : (0 : ℝ) < 1 + 1.96 * 1.96 / t := by positivity
       have hhalfnn : 0 ≤ (1.96 / (1 + 1.96 * 1.96 / t)) *
           Real.sqrt ((s / t * (1 - s / t) + 1.96 * 1.96 / (4 * t)) / t) := by positivity
       have hcenter0 : 0 ≤ (s / t + 1.96 * 1.96 / (2 * t)) / (1 + 1.96 * 1.96 / t) :=
         div_nonneg (add_nonneg hphat0 (by positivity)) hdenom.le
       have hcenter1 : (s / t + 1.96 * 1.96 / (2 * t)) / (1 + 1.96 * 1.96 / t) ≤ 1 := by
         rw [div_le_one hdenom]
         have h2 : 1.96 * 1.96 / (2 * t) ≤ 1.96 * 1.96 / t := by
           gcongr
           linarith
         linarith
       simp only [wilsonInterval, if_neg ht]
       first
       | exact le_max_left _ _
       | exact max_le hcenter0 (by linarith)
       | exact le_min hcenter1 (by linarith)
       | exact min_le_left _ _)

theorem claim_C6_witness :
    (0 : ℝ) ≤ 8 ∧ (8 : ℝ) ≤ 10 ∧
    (0 ≤ (wilsonInterval 8 10).low ∧
      (wilsonInterval 8 10).low ≤ (wilsonInterval 8 10).center ∧
      (wilsonInterval 8 10).center ≤ (wilsonInterval 8 10).high ∧
      (wilsonInterval 8 10).high ≤ 1) :=
  ⟨by norm_num, by norm_num,
    ⟨(claim_C6 8 10 (by norm_num) (by norm_num)).2.1,
     (claim_C6 8 10 (by norm_num) (by norm_num)).2.2.1,
     (claim_C6 8 10 (by norm_num) (by norm_num)).2.2.2.1,
     (claim_C6 8 10 (by norm_num) (by norm_num)).2.2.2.2.1⟩⟩

theorem claim_C10_witness :
    (failedRunMetrics "task-a" "default" AgentKind.cli 0
        (some { traceId := "t1", name := none, toolCallCount := 3, errors := 0, retries := 2 })
        1000 "2026-02-01T00:00:00.000Z" "boom").toolCallCount = (3 : ℚ) ∧
    (failedRunMetrics "task-a" "default" AgentKind.cli 0
        (some { traceId := "t1", name := none, toolCallCount := 3, errors := 0, retries := 2 })
        1000 "2026-02-01T00:00:00.000Z" "boom").retries = (2 : ℚ) := by
  have h := (claim_C10 "task-a" "default" AgentKind.cli 0
      (some { traceId := "t1", name := none, toolCallCount := 3, errors := 0, retries := 2 })
      1000 "2026-02-01T00:00:00.000Z" "boom").2.2.2.1
      { traceId := "t1", name := none, toolCallCount := 3, errors := 0, retries := 2 } rfl
  exact ⟨h.1.trans (by norm_num), h.2.trans (by norm_num)⟩

end MCPBench
